import Mathlib

/- Verification development for the ClockBot session reconciliation and
   reporting engine (src/clockbot.py).

   Shallow-embedding conventions:
   * An instant (Python aware UTC `datetime`) is modelled as whole seconds
     since the Unix epoch, an `Int`.  Differences of instants are exact, so
     `timedelta.total_seconds()` is plain `Int` subtraction.  Calendar
     operations (`replace(day=1, ...)`, `weekday()`, `strftime`) are modelled
     through days-since-epoch and civil-calendar conversion functions.
   * Elapsed-hour totals (`f64` in the source) are modelled as exact
     rationals `ℚ`: `(out - in).total_seconds() / 3600` becomes exact
     division in `ℚ`.
   * The Supabase event store is an external collaborator; it is modelled as
     a `Store` value: a list of known users plus a query function returning
     the chronologically ordered `(action, timestamp)` rows for a user and
     an optional `since` lower bound, exactly the shape the source's
     `for ev, ts in get_user_sessions(...)` loop consumes.
   * Python string helpers used by the source (`str.lower`, `str.upper`,
     `str.title`, `str.split()`, `str.startswith`, `int(...)`) are modelled
     by executable functions on `List Char` with the same behaviour on the
     ASCII inputs the program handles.
-/

namespace ClockBot

/-- One step of the session-reconciliation loop shared by `generate_stats`
(lines 55-62) and the detailed-report branch (lines 177-185) of
src/clockbot.py.  State is `(last, total)`: the open clock-in instant (if
any) and the accumulated hours.  `if ev == "in": last = tdt` /
`elif ev == "out" and last: total += (tdt - last).total_seconds()/3600;
last = None`; any other action leaves the state unchanged. -/
def reconcileStep (st : Option Int × ℚ) (e : String × Int) : Option Int × ℚ :=
  if e.1 = "in" then (some e.2, st.2)
  else if e.1 = "out" then
    match st.1 with
    | some tin => (none, st.2 + ((e.2 - tin : Int) : ℚ) / 3600)
    | none => st
  else st

/-- Total hours produced by running the reconciliation loop over an ordered
event list starting from `total, last = 0.0, None`. -/
def reconcileTotal (evs : List (String × Int)) : ℚ :=
  (evs.foldl reconcileStep (none, 0)).2

/-- Spec-side construction (not from the source): the event stream of a
well-formed alternating `In,Out,In,Out,...` sequence given as a list of
`(in, out)` timestamp pairs. -/
def pairsToEvents : List (Int × Int) → List (String × Int)
  | [] => []
  | (i, o) :: ps => ("in", i) :: ("out", o) :: pairsToEvents ps

/-- Spec-side predicate (not from the source): the `(in, out)` pairs are
chronologically ordered — each in precedes its out, and each out precedes
the next in. -/
def chrono : List (Int × Int) → Bool
  | [] => true
  | [(i, o)] => decide (i ≤ o)
  | (i, o) :: (i', o') :: ps =>
      (decide (i ≤ o) && decide (o ≤ i')) && chrono ((i', o') :: ps)

/-- Zero-pad an integer to two digits (the `%m`, `%d`, `%H`, `%M`, `%S`
fields of `strftime`). -/
def pad2 (n : Int) : String :=
  if n < 10 then "0" ++ toString n else toString n

/-- Zero-pad an integer to four digits (the `%Y` field of `strftime`). -/
def pad4 (n : Int) : String :=
  if n < 10 then "000" ++ toString n
  else if n < 100 then "00" ++ toString n
  else if n < 1000 then "0" ++ toString n
  else toString n

/-- Proleptic-Gregorian civil date `(year, month, day)` of a
days-since-1970-01-01 count, mirroring the conversion CPython's `datetime`
performs internally (floor-division form of the standard era-based
algorithm). -/
def civilFromDays (z0 : Int) : Int × Int × Int :=
  let z := z0 + 719468
  let era := z / 146097
  let doe := z - era * 146097
  let yoe := (doe - doe / 1460 + doe / 36524 - doe / 146096) / 365
  let y := yoe + era * 400
  let doy := doe - (365 * yoe + yoe / 4 - yoe / 100)
  let mp := (5 * doy + 2) / 153
  let d := doy - (153 * mp + 2) / 5 + 1
  let m := if mp < 10 then mp + 3 else mp - 9
  (if m ≤ 2 then y + 1 else y, m, d)

/-- Days since 1970-01-01 of a proleptic-Gregorian civil date, the inverse
conversion of `civilFromDays`. -/
def daysFromCivil (y m d : Int) : Int :=
  let y' := if m ≤ 2 then y - 1 else y
  let era := y' / 400
  let yoe := y' - era * 400
  let mp := if 2 < m then m - 3 else m + 9
  let doy := (153 * mp + 2) / 5 + d - 1
  let doe := yoe * 365 + yoe / 4 - yoe / 100 + doy
  era * 146097 + doe - 719468

/-- `now.replace(hour=0, minute=0, second=0, microsecond=0)` on a UTC
instant: the most recent midnight. -/
def startOfDay (t : Int) : Int := t - t % 86400

/-- Python `datetime.weekday()` (Monday = 0) of a UTC instant: day index
since the epoch shifted by 3 because 1970-01-01 was a Thursday. -/
def pyWeekday (t : Int) : Int := (t / 86400 + 3) % 7

/-- The `week` window bound of `generate_stats` (line 44):
`(now - timedelta(days=now.weekday())).replace(hour=0, minute=0, second=0,
microsecond=0)`. -/
def startOfWeek (t : Int) : Int := startOfDay (t - 86400 * pyWeekday t)

/-- The `month` window bound of `generate_stats` (line 46):
`now.replace(day=1, hour=0, minute=0, second=0, microsecond=0)`. -/
def startOfMonth (t : Int) : Int :=
  86400 * daysFromCivil (civilFromDays (t / 86400)).1 (civilFromDays (t / 86400)).2.1 1

/-- The `year` window bound of `generate_stats` (line 48):
`now.replace(month=1, day=1, hour=0, minute=0, second=0, microsecond=0)`. -/
def startOfYear (t : Int) : Int :=
  86400 * daysFromCivil (civilFromDays (t / 86400)).1 1 1

/-- The `since` lower bound computed by `generate_stats` (lines 40-48):
`None` for `all` (and for any unrecognized period, which the caller has
already rejected). -/
def sinceOf (period : String) (now : Int) : Option Int :=
  if period = "day" then some (startOfDay now)
  else if period = "week" then some (startOfWeek now)
  else if period = "month" then some (startOfMonth now)
  else if period = "year" then some (startOfYear now)
  else none

/-- Python `str.lower()` (ASCII behaviour). -/
def pyLower (s : String) : String := String.mk (s.data.map Char.toLower)

/-- Python `str.upper()` (ASCII behaviour). -/
def pyUpper (s : String) : String := String.mk (s.data.map Char.toUpper)

/-- Helper for `pyTitle`: the flag records whether the previous character
was alphabetic (i.e. we are inside a word). -/
def pyTitleAux : Bool → List Char → List Char
  | _, [] => []
  | prev, c :: cs =>
      (if c.isAlpha then (if prev then c.toLower else c.toUpper) else c)
        :: pyTitleAux c.isAlpha cs

/-- Python `str.title()` (ASCII behaviour): first letter of each word
upper-cased, the rest lower-cased. -/
def pyTitle (s : String) : String := String.mk (pyTitleAux false s.data)

/-- Rendering of an hour total with two decimal digits, Python's
`f"{total:.2f}"` on the exact rational value: round to the nearest
centi-hour, ties to even, matching IEEE-754 formatting whenever the total
is exactly representable (totals in scope are nonnegative). -/
def fmt2 (q : ℚ) : String :=
  let s := q * 100
  let f := s.floor
  let c :=
    if s - (f : ℚ) > 1 / 2 then f + 1
    else if s - (f : ℚ) < 1 / 2 then f
    else if f % 2 = 0 then f else f + 1
  toString (c / 100) ++ "." ++ pad2 (c % 100)

/-- The Supabase event store, an external collaborator: the distinct users
(`get_all_users`) and the ordered `(action, timestamp)` rows returned by
`get_user_sessions(user, since)`. -/
structure Store where
  users : List String
  sessions : String → Option Int → List (String × Int)

/-- A Zulip message as consumed by `Handler.handle_message`: the sender's
display name, the sender's email, and the message text. -/
structure Message where
  sender_full_name : String
  sender_email : String
  content : String

/-- `users = [target_user] if target_user else get_all_users()`
(line 50 of src/clockbot.py).  Python truthiness: both `None` and the
empty string fall back to `get_all_users()`. -/
def users_in_scope (store : Store) (target : Option String) : List String :=
  match target with
  | some u => if u.isEmpty then store.users else [u]
  | none => store.users

/-- The per-user line `f"- {u}: {total:.2f} hrs"` appended by
`generate_stats` (line 63). -/
def user_total_line (store : Store) (since : Option Int) (u : String) : String :=
  "- " ++ u ++ ": " ++ fmt2 (reconcileTotal (store.sessions u since)) ++ " hrs"

/-- `generate_stats(period, target_user)` (lines 38-65 of src/clockbot.py),
returning the report as its list of lines: the title line followed by one
total line per user in scope. -/
def generate_stats (store : Store) (now : Int) (period : String)
    (target_user : Option String) : List String :=
  let since := sinceOf period now
  let title := if period = "all" then "All time" else pyTitle period
  (users_in_scope store target_user).foldl
    (fun lines u => lines ++ [user_total_line store since u])
    ["⏰ Clock Stats (" ++ title ++ "):"]

/-- `ts.strftime("%Y-%m-%d %H:%M:%S")` of a UTC-or-shifted instant. -/
def pyStrftime (t : Int) : String :=
  let c := civilFromDays (t / 86400)
  let tod := t % 86400
  pad4 c.1 ++ "-" ++ pad2 c.2.1 ++ "-" ++ pad2 c.2.2 ++ " " ++
    pad2 (tod / 3600) ++ ":" ++ pad2 (tod % 3600 / 60) ++ ":" ++ pad2 (tod % 60)

/-- Day index of the first Sunday on or after day index `d`. -/
def firstSundayOnOrAfter (d : Int) : Int := d + (6 - (d + 3) % 7)

/-- UTC offset in seconds of `zoneinfo`'s America/New_York at instant `t`,
modelling the external tzdata collaborator for current-era instants: EDT
(-4 h) between 07:00 UTC of the second Sunday of March and 06:00 UTC of the
first Sunday of November, EST (-5 h) otherwise. -/
def nycOffset (t : Int) : Int :=
  let y := (civilFromDays (t / 86400)).1
  let dstStart := 86400 * firstSundayOnOrAfter (daysFromCivil y 3 8) + 7 * 3600
  let dstEnd := 86400 * firstSundayOnOrAfter (daysFromCivil y 11 1) + 6 * 3600
  if dstStart ≤ t ∧ t < dstEnd then -14400 else -18000

/-- `fmt_multi(ts)` (lines 68-79 of src/clockbot.py): the fixed zone table
(UTC +0, NYC via tzdata, IST +5:30 = 19800 s, NPT +5:45 = 20700 s) rendered
as `"{abbr} {local time}"` parts joined by `" | "`. -/
def fmt_multi (t : Int) : String :=
  String.intercalate " | "
    ["UTC " ++ pyStrftime t,
     "NYC " ++ pyStrftime (t + nycOffset t),
     "IST " ++ pyStrftime (t + 19800),
     "NPT " ++ pyStrftime (t + 20700)]

/-- `str(since.date())`: the `YYYY-MM-DD` calendar date of an instant. -/
def dateStr (t : Int) : String :=
  let c := civilFromDays (t / 86400)
  pad4 c.1 ++ "-" ++ pad2 c.2.1 ++ "-" ++ pad2 c.2.2

/-- The characters removed from the left by `token.lstrip("@*<")`. -/
def inLstripSet (c : Char) : Bool := c == '@' || c == '*' || c == '<'

/-- The characters removed from the right by `raw.rstrip("*>")`. -/
def inRstripSet (c : Char) : Bool := c == '*' || c == '>'

/-- `strip_mention(token)` (lines 82-84 of src/clockbot.py):
`token.lstrip("@*<").rstrip("*>").split("|", 1)[0]`. -/
def strip_mention (token : String) : String :=
  let raw := ((token.data.dropWhile inLstripSet).reverse.dropWhile inRstripSet).reverse
  String.mk (raw.takeWhile fun c => c != '|')

/-- Spec-side predicate: a character that is neither a mention-markup
character nor a `|` separator, so `strip_mention` keeps it intact. -/
def cleanChar (c : Char) : Bool :=
  !(c == '@' || c == '*' || c == '<' || c == '>' || c == '|')

/-- Spec-side predicate: a display name free of mention-markup characters. -/
def cleanName (s : String) : Bool := s.data.all cleanChar

/-- Scanner for the regex `@\*\*(.*?)\*\*` (line 142 of src/clockbot.py):
skip to the first occurrence of `@**`, returning the remaining characters. -/
def afterAt : List Char → Option (List Char)
  | '@' :: '*' :: '*' :: rest => some rest
  | _ :: rest => afterAt rest
  | [] => none

/-- Scanner for the regex `@\*\*(.*?)\*\*`: the (non-greedy) group up to
the first following `**`, if any. -/
def upToStars : List Char → Option (List Char)
  | c :: c' :: rest =>
      if c = '*' ∧ c' = '*' then some []
      else
        match upToStars (c' :: rest) with
        | some name => some (c :: name)
        | none => none
  | _ => none

/-- `re.search(r"@\*\*(.*?)\*\*", text)` and `m.group(0)`: the first
`@**...**` mention in the text, wrappers included. -/
def findMentionGroup (text : String) : Option String :=
  match afterAt text.data with
  | none => none
  | some rest =>
    match upToStars rest with
    | none => none
    | some name => some (String.mk ('@' :: '*' :: '*' :: (name ++ ['*', '*'])))

/-- The identity under which `handle_message` appends clock events:
`log_event(sender_email, "in")` / `log_event(sender_email, "out")`
(lines 110 and 119 of src/clockbot.py). -/
def log_user_clock_in (m : Message) : String := m.sender_email

/-- The identity under which the detailed-report branch queries events:
`user = strip_mention(m.group(0))` (line 148), later passed to
`get_user_sessions(user, ...)` (line 178). -/
def report_query_key (text : String) : Option String :=
  (findMentionGroup text).map strip_mention

/-- Helper for `pySplit`: accumulate the current word (reversed) and flush
it at whitespace and at end of input. -/
def pySplitAux : List Char → List Char → List String
  | [], acc => if acc.isEmpty then [] else [String.mk acc.reverse]
  | c :: cs, acc =>
      if c.isWhitespace then
        if acc.isEmpty then pySplitAux cs [] else String.mk acc.reverse :: pySplitAux cs []
      else pySplitAux cs (c :: acc)

/-- Python `text.split()` (no argument): split on whitespace runs,
discarding empty fields. -/
def pySplit (s : String) : List String := pySplitAux s.data []

/-- Numeric value of a digit string. -/
def pyDigitsVal (ds : List Char) : Int :=
  ds.foldl (fun n c => 10 * n + ((c.toNat : Int) - 48)) 0

/-- Python `int(s)` on the strings this program feeds it: an optional sign
followed by decimal digits, `ValueError` (here `none`) otherwise. -/
def pyInt? (s : String) : Option Int :=
  match s.data with
  | '-' :: ds => if !ds.isEmpty && ds.all Char.isDigit then some (-pyDigitsVal ds) else none
  | '+' :: ds => if !ds.isEmpty && ds.all Char.isDigit then some (pyDigitsVal ds) else none
  | ds => if !ds.isEmpty && ds.all Char.isDigit then some (pyDigitsVal ds) else none

/-- The five period keywords accepted by the `stats` and `report` commands
(lines 128 and 151 of src/clockbot.py). -/
def periodKeywords : List String := ["day", "week", "month", "year", "all"]

/-- Python `s.startswith(pre)`. -/
def pyStartsWith (s pre : String) : Bool := pre.data.isPrefixOf s.data

/-- `timedelta(weeks=n)` in seconds. -/
def timedelta_weeks (n : Int) : Int := n * 7 * 86400

/-- `timedelta(days=d)` in seconds. -/
def timedelta_days (d : Int) : Int := d * 86400

/-- The relative window bound of the `report` command (lines 162-169 of
src/clockbot.py): `now - timedelta(weeks=n)` /
`now - timedelta(days=30*n)` / `now - timedelta(days=365*n)` keyed on
`unit.startswith(...)`, `ValueError` (here `none`) for any other unit. -/
def relativeSince (n : Int) (unit : String) (now : Int) : Option Int :=
  if pyStartsWith unit "week" then some (now - timedelta_weeks n)
  else if pyStartsWith unit "month" then some (now - timedelta_days (30 * n))
  else if pyStartsWith unit "year" then some (now - timedelta_days (365 * n))
  else none

/-- Python's `f"{s:5s}"`: left-justify, pad on the right with spaces to a
minimum width of 5 (never truncates). -/
def pad5 (s : String) : String :=
  s ++ String.mk (List.replicate (5 - s.length) ' ')

/-- The narrative line `f" • {ev.upper():5s} @ {fmt_multi(tdt)}"` appended
for every event by the detailed-report branch (line 180). -/
def narrativeLine (e : String × Int) : String :=
  " • " ++ pad5 (pyUpper e.1) ++ " @ " ++ fmt_multi e.2

/-- The relative-window detailed report (lines 176-186 of src/clockbot.py):
the header line, then a single pass over the events appending one narrative
line per event while reconciling totals, then the closing
`f"Total: {total:.2f} hrs"` line. -/
def report_lines (user : String) (since : Int) (evs : List (String × Int)) : List String :=
  let res := evs.foldl
    (fun acc e => (acc.1 ++ [narrativeLine e], reconcileStep acc.2 e))
    (["⏰ Report for " ++ user ++ " since " ++ dateStr since ++ ":"],
      ((none : Option Int), (0 : ℚ)))
  res.1 ++ ["Total: " ++ fmt2 res.2.2 ++ " hrs"]

/-- The `report` command branch of `Handler.handle_message` (lines 142-188
of src/clockbot.py), after the admin check: find the `@**...**` mention
(usage error — `none` — if absent), strip it to the queried user; if the
last token is a period keyword, reply with `generate_stats` for that user;
otherwise parse `int(parts[-2])` and the unit from `parts[-1]` and render
the relative-window detailed report.  (In Python a missing `parts[-2]`
raises and is caught by the same `except` as a failed `int`, yielding the
usage reply, modelled as `none`.) -/
def handle_report (store : Store) (now : Int) (text : String) : Option (List String) :=
  match findMentionGroup text with
  | none => none
  | some g =>
    if pyLower ((pySplit text).getLastD "") ∈ periodKeywords then
      some (generate_stats store now (pyLower ((pySplit text).getLastD ""))
        (some (strip_mention g)))
    else
      match ((pySplit text).get? ((pySplit text).length - 2)).bind pyInt? with
      | none => none
      | some n =>
        match relativeSince n (pyLower ((pySplit text).getLastD "")) now with
        | none => none
        | some since =>
          some (report_lines (strip_mention g) since
            (store.sessions (strip_mention g) (some since)))

/-- The `stats` command branch of `Handler.handle_message` (lines 126-134
of src/clockbot.py): `period = parts[1].lower() if len(parts) > 1 else
"day"`; an unrecognized period yields the caller-visible InvalidPeriod
reply (modelled as `Except.error`), otherwise the `generate_stats` report. -/
def handle_stats (parts : List String) (store : Store) (now : Int) :
    Except String (List String) :=
  let period :=
    match parts.get? 1 with
    | some p => pyLower p
    | none => "day"
  if period ∈ periodKeywords then Except.ok (generate_stats store now period none)
  else Except.error "Invalid period. Use: day, week, month, year, or all."

/-- Whether a `stats` outcome is the InvalidPeriod error reply. -/
def isError : Except String (List String) → Bool
  | Except.error _ => true
  | Except.ok _ => false

/-- A concrete one-user store with no recorded events, used to exhibit
concrete report outputs. -/
def aliceStore : Store := ⟨["Alice"], fun _ _ => []⟩

/- ------------------------------------------------------------------ -/
/- Helper lemmas                                                      -/
/- ------------------------------------------------------------------ -/

/-- Folding the reconciliation step over an alternating in/out pair stream
adds exactly the sum of the per-pair durations in hours. -/
theorem reconcile_pairs_aux : ∀ (ps : List (Int × Int)) (c : ℚ),
    List.foldl reconcileStep (none, c) (pairsToEvents ps)
      = (none, c + (ps.map (fun p => ((p.2 - p.1 : Int) : ℚ) / 3600)).sum)
  | [], c => by simp [pairsToEvents]
  | (i, o) :: ps, c => by
    have s1 : reconcileStep (none, c) ("in", i) = (some i, c) := rfl
    have s2 : reconcileStep (some i, c) ("out", o)
        = (none, c + ((o - i : Int) : ℚ) / 3600) := rfl
    calc List.foldl reconcileStep (none, c) (pairsToEvents ((i, o) :: ps))
        = List.foldl reconcileStep (none, c + ((o - i : Int) : ℚ) / 3600)
            (pairsToEvents ps) := by
          simp [pairsToEvents, List.foldl_cons, s1, s2]
      _ = (none, c + ((o - i : Int) : ℚ) / 3600
            + (ps.map (fun p => ((p.2 - p.1 : Int) : ℚ) / 3600)).sum) := by
          rw [reconcile_pairs_aux ps]
      _ = (none, c + (((i, o) :: ps).map (fun p => ((p.2 - p.1 : Int) : ℚ) / 3600)).sum) := by
          simp [List.map_cons, List.sum_cons]; ring

/-- A left fold that only appends one element per input equals the initial
list followed by the map. -/
theorem foldl_append_singleton {α : Type} (f : α → String) :
    ∀ (l : List α) (init : List String),
      l.foldl (fun acc u => acc ++ [f u]) init = init ++ l.map f := by
  intro l
  induction l with
  | nil => intro init; simp
  | cons a l ih => intro init; simp [List.foldl_cons, ih]

/-- The combined lines-and-state fold of the detailed report splits into
the narrative map and the reconciliation fold. -/
theorem detail_fold_aux :
    ∀ (evs : List (String × Int)) (L : List String) (st : Option Int × ℚ),
      List.foldl (fun acc e => (acc.1 ++ [narrativeLine e], reconcileStep acc.2 e)) (L, st) evs
        = (L ++ evs.map narrativeLine, List.foldl reconcileStep st evs)
  | [], L, st => by simp
  | e :: evs, L, st => by
      simp [List.foldl_cons,
        detail_fold_aux evs (L ++ [narrativeLine e]) (reconcileStep st e)]

/-- A markup-free character is not stripped by `lstrip("@*<")`. -/
theorem clean_not_lstrip (c : Char) (h : cleanChar c = true) : inLstripSet c = false := by
  simp [cleanChar] at h
  simp [inLstripSet]
  tauto

/-- A markup-free character is not stripped by `rstrip("*>")`. -/
theorem clean_not_rstrip (c : Char) (h : cleanChar c = true) : inRstripSet c = false := by
  simp [cleanChar] at h
  simp [inRstripSet]
  tauto

/-- A markup-free character is not a star. -/
theorem clean_not_star (c : Char) (h : cleanChar c = true) : (c == '*') = false := by
  simp [cleanChar] at h
  simp
  tauto

/-- A markup-free character is not the `|` separator. -/
theorem clean_not_bar (c : Char) (h : cleanChar c = true) : (c != '|') = true := by
  simp [cleanChar] at h
  simp
  tauto

/-- `dropWhile` keeps a list none of whose elements satisfy the predicate. -/
theorem dropWhile_all_false (p : Char → Bool) :
    ∀ l : List Char, (∀ c ∈ l, p c = false) → l.dropWhile p = l
  | [], _ => rfl
  | c :: cs, h => by simp [List.dropWhile_cons, h c (by simp)]

/-- `takeWhile` keeps a list all of whose elements satisfy the predicate. -/
theorem takeWhile_all_true (p : Char → Bool) :
    ∀ l : List Char, (∀ c ∈ l, p c = true) → l.takeWhile p = l
  | [], _ => rfl
  | c :: cs, h => by
      simp [List.takeWhile_cons, h c (by simp),
        takeWhile_all_true p cs (fun x hx => h x (List.mem_cons_of_mem c hx))]

/-- The non-greedy group scanner stops exactly at the first `**` following
a star-free group. -/
theorem upToStars_clean : ∀ (l X : List Char),
    (∀ c ∈ l, (c == '*') = false) → upToStars (l ++ '*' :: '*' :: X) = some l
  | [], X, _ => rfl
  | [c], X, h => by
      have hne : ¬ c = '*' := by
        have := h c (by simp)
        simpa using this
      show upToStars (c :: '*' :: '*' :: X) = some [c]
      simp only [upToStars]
      rw [if_neg (show ¬(c = '*' ∧ True) from fun hh => hne hh.1)]
      simp
  | c :: c' :: cs, X, h => by
      have hne : ¬ c = '*' := by
        have := h c (by simp)
        simpa using this
      have hrec := upToStars_clean (c' :: cs) X (fun x hx => h x (List.mem_cons_of_mem c hx))
      show upToStars (c :: c' :: (cs ++ '*' :: '*' :: X)) = some (c :: c' :: cs)
      simp only [upToStars]
      rw [if_neg (show ¬(c = '*' ∧ c' = '*') from fun hh => hne hh.1)]
      rw [show upToStars (c' :: (cs ++ '*' :: '*' :: X)) = some (c' :: cs) from hrec]

/-- Stripping the mention wrappers from `@**name**` recovers a markup-free
display name exactly. -/
theorem strip_mention_wrap (name : String) (h : cleanName name = true) :
    strip_mention ("@**" ++ name ++ "**") = name := by
  obtain ⟨l⟩ := name
  have hl : ∀ c ∈ l, cleanChar c = true := by
    simpa [cleanName, List.all_eq_true] using h
  show String.mk (((("@**" ++ (⟨l⟩ : String) ++ "**").data.dropWhile
      inLstripSet).reverse.dropWhile inRstripSet).reverse.takeWhile fun c => c != '|') = ⟨l⟩
  have d1 : ("@**" ++ (⟨l⟩ : String) ++ "**").data.dropWhile inLstripSet
      = (l ++ ['*', '*']).dropWhile inLstripSet := rfl
  rw [d1]
  cases l with
  | nil => rfl
  | cons c cs =>
    have hc := hl c (by simp)
    have d2 : ((c :: cs) ++ ['*', '*']).dropWhile inLstripSet = c :: (cs ++ ['*', '*']) := by
      simp [List.dropWhile_cons, clean_not_lstrip c hc]
    rw [d2]
    have d3 : (c :: (cs ++ ['*', '*'])).reverse = '*' :: '*' :: (c :: cs).reverse := by
      simp
    rw [d3]
    have d4 : ('*' :: '*' :: (c :: cs).reverse).dropWhile inRstripSet
        = (c :: cs).reverse.dropWhile inRstripSet := rfl
    rw [d4]
    have d5 : (c :: cs).reverse.dropWhile inRstripSet = (c :: cs).reverse := by
      apply dropWhile_all_false
      intro x hx
      exact clean_not_rstrip x (hl x (List.mem_reverse.mp hx))
    rw [d5, List.reverse_reverse]
    have d6 : (c :: cs).takeWhile (fun c => c != '|') = c :: cs := by
      apply takeWhile_all_true
      intro x hx
      exact clean_not_bar x (hl x hx)
    rw [d6]

/- ------------------------------------------------------------------ -/
/- Claims                                                             -/
/- ------------------------------------------------------------------ -/

/-- C1: for every well-formed alternating `In,Out,In,Out,...` event
sequence (chronologically ordered, same user), the reconciler's total
equals the exact sum over each adjacent In/Out pair of the difference of
timestamps converted to hours by dividing the seconds by 3600.  The
source's 64-bit floating arithmetic is modelled by exact rationals. -/
theorem c1_alternating_total (ps : List (Int × Int)) (h : chrono ps = true) :
    reconcileTotal (pairsToEvents ps)
      = (ps.map (fun p => ((p.2 - p.1 : Int) : ℚ) / 3600)).sum := by
  unfold reconcileTotal
  rw [reconcile_pairs_aux]
  simp

/-- Witness for C1 at the chronological pair list `[(0, 3600), (7200,
10800)]`: two one-hour sessions total exactly 2 hours. -/
theorem c1_witness :
    chrono [((0 : Int), 3600), (7200, 10800)] = true ∧
    reconcileTotal (pairsToEvents [((0 : Int), 3600), (7200, 10800)]) = 2 := by
  refine ⟨rfl, ?_⟩
  rw [c1_alternating_total [((0 : Int), 3600), (7200, 10800)] (by decide)]
  norm_num

/-- C2 (amended): clock-in/clock-out events are appended under the
sender's email (`log_event(sender_email, ...)`), while the detailed report
queries events under the display name stripped from the `@**...**`
mention.  For a markup-free display name the query key is exactly that
name, so the write key and the read key coincide only when the email
string equals the display name — otherwise one logical user's history is
split across two keys. -/
theorem c2_identity_keys (name email content : String) (h : cleanName name = true) :
    log_user_clock_in ⟨name, email, content⟩ = email ∧
    report_query_key ("report @**" ++ name ++ "** day") = some name := by
  refine ⟨rfl, ?_⟩
  obtain ⟨l⟩ := name
  have hl : ∀ c ∈ l, cleanChar c = true := by
    simpa [cleanName, List.all_eq_true] using h
  have hstar : ∀ c ∈ l, (c == '*') = false := fun c hc => clean_not_star c (hl c hc)
  have ha : afterAt (("report @**" ++ (⟨l⟩ : String) ++ "** day").data)
      = some (l ++ "** day".data) := rfl
  have hu : upToStars (l ++ "** day".data) = some l :=
    upToStars_clean l " day".data hstar
  unfold report_query_key findMentionGroup
  rw [ha]
  dsimp only
  rw [hu]
  dsimp only [Option.map_some]
  exact congrArg some (strip_mention_wrap ⟨l⟩ h)

/-- Counterexample to C2 as stated: the user whose display name is
`Alice` and email is `alice@example.com` has clock events written under
the key `alice@example.com` (line 110 of src/clockbot.py) but detailed
reports for `report @**Alice** day` query the key `Alice` (lines 148 and
178) — two different keys for the same physical user. -/
theorem c2_counterexample :
    log_user_clock_in ⟨"Alice", "alice@example.com", "in"⟩ = "alice@example.com" ∧
    report_query_key "report @**Alice** day" = some "Alice" ∧
    ("alice@example.com" : String) ≠ "Alice" :=
  ⟨rfl, by decide, by decide⟩

/-- Witness for C2 (amended) at the markup-free name `Alice` and email
`alice@example.com`. -/
theorem c2_witness :
    cleanName "Alice" = true ∧
    log_user_clock_in ⟨"Alice", "alice@example.com", "in"⟩ = "alice@example.com" ∧
    report_query_key ("report @**" ++ "Alice" ++ "** day") = some "Alice" :=
  ⟨by decide, (c2_identity_keys "Alice" "alice@example.com" "in" (by decide)).1,
   (c2_identity_keys "Alice" "alice@example.com" "in" (by decide)).2⟩

/-- C3: a new `In` while a previous `In` is still open discards the
previous open `In` from totals and makes the new timestamp the open one
(last-open-wins): anywhere in the stream, the earlier unmatched `In` has
no effect on the total. -/
theorem c3_last_open_wins (pre rest : List (String × Int)) (t t' : Int) :
    reconcileTotal (pre ++ ("in", t) :: ("in", t') :: rest)
      = reconcileTotal (pre ++ ("in", t') :: rest) := by
  unfold reconcileTotal
  rw [List.foldl_append, List.foldl_append]
  have h : ∀ (st : Option Int × ℚ) (a : Int), reconcileStep st ("in", a) = (some a, st.2) :=
    fun _ _ => rfl
  simp [List.foldl_cons, h]

/-- C4: dangling events contribute zero — an `Out` reached with no open
`In` leaves the rest of the reconciliation unchanged, and an `In` still
open at end-of-stream (trailing open session) is excluded from the
total. -/
theorem c4_dangling_zero :
    (∀ (st : Option Int × ℚ) (t : Int) (rest : List (String × Int)), st.1 = none →
        List.foldl reconcileStep st (("out", t) :: rest) = List.foldl reconcileStep st rest) ∧
    (∀ (evs : List (String × Int)) (t : Int),
        reconcileTotal (evs ++ [("in", t)]) = reconcileTotal evs) := by
  constructor
  · intro st t rest h
    obtain ⟨o, c⟩ := st
    cases o with
    | none => rfl
    | some x => simp at h
  · intro evs t
    unfold reconcileTotal
    rw [List.foldl_append]
    rfl

/-- Witness for C4: a leading dangling `Out` is dropped, a trailing open
`In` is dropped, and the spec scenario `[(in, T0), (out, T0+1h),
(in, T0+2h)]` totals exactly 1 hour. -/
theorem c4_witness :
    List.foldl reconcileStep ((none : Option Int), (0 : ℚ))
        (("out", (50 : Int)) :: [("in", 0), ("out", 3600)])
      = List.foldl reconcileStep (none, 0) [("in", 0), ("out", 3600)] ∧
    reconcileTotal ([("in", (0 : Int)), ("out", 3600)] ++ [("in", 7200)])
      = reconcileTotal [("in", 0), ("out", 3600)] ∧
    reconcileTotal [("in", (0 : Int)), ("out", 3600)] = 1 :=
  ⟨c4_dangling_zero.1 (none, 0) 50 [("in", 0), ("out", 3600)] rfl,
   c4_dangling_zero.2 [("in", 0), ("out", 3600)] 7200,
   by with_unfolding_all rfl⟩

/-- C5 (amended): `generate_stats` emits no elapsed-unit annotation for
any period — for every store, reference instant, period and optional
target user, the team-stats output is exactly the title line followed by
one total line per user in scope, with nothing after the per-user
lines. -/
theorem c5_stats_shape (store : Store) (now : Int) (period : String) (target : Option String) :
    generate_stats store now period target
      = ("⏰ Clock Stats (" ++ (if period = "all" then "All time" else pyTitle period) ++ "):")
          :: (users_in_scope store target).map (user_total_line store (sinceOf period now)) := by
  unfold generate_stats
  rw [foldl_append_singleton]
  simp

/-- Counterexample to C5 as stated: a `week` team-stats report (period in
the set the claim covers) over a one-user store is exactly the title line
and the single per-user line — there is no elapsed-unit annotation line
after the per-user lines. -/
theorem c5_no_annotation :
    generate_stats aliceStore 0 "week" none
      = ["⏰ Clock Stats (Week):", "- Alice: 0.00 hrs"] := by
  with_unfolding_all rfl

/-- C6 (amended): only the relative count-and-unit form of the detailed
report renders narrative lines — its output is the header, exactly one
line `" • " ++ pad5 (upper action) ++ " @ " ++ fmt_multi t` per event, and
the final `"Total: {total:.2f} hrs"` line; a period-keyword request
instead replies with the `generate_stats` team-stats rendering restricted
to that user (title plus per-user line, no narrative lines and no Total
line). -/
theorem c6_report_shape :
    (∀ (user : String) (since : Int) (evs : List (String × Int)),
        report_lines user since evs
          = ("⏰ Report for " ++ user ++ " since " ++ dateStr since ++ ":")
              :: (evs.map narrativeLine
                ++ ["Total: " ++ fmt2 (reconcileTotal evs) ++ " hrs"])) ∧
    (∀ (store : Store) (now : Int) (text : String) (g : String),
        findMentionGroup text = some g →
        pyLower ((pySplit text).getLastD "") ∈ periodKeywords →
        handle_report store now text
          = some (generate_stats store now (pyLower ((pySplit text).getLastD ""))
              (some (strip_mention g)))) ∧
    (∀ (store : Store) (now : Int) (text : String) (g : String) (n since : Int),
        findMentionGroup text = some g →
        pyLower ((pySplit text).getLastD "") ∉ periodKeywords →
        ((pySplit text).get? ((pySplit text).length - 2)).bind pyInt? = some n →
        relativeSince n (pyLower ((pySplit text).getLastD "")) now = some since →
        handle_report store now text
          = some (report_lines (strip_mention g) since
              (store.sessions (strip_mention g) (some since)))) := by
  refine ⟨?_, ?_, ?_⟩
  · intro user since evs
    unfold report_lines reconcileTotal
    rw [detail_fold_aux]
    simp
  · intro store now text g h1 h2
    unfold handle_report
    rw [h1]
    dsimp only
    rw [if_pos h2]
  · intro store now text g n since h1 h2 h3 h4
    unfold handle_report
    rw [h1]
    dsimp only
    rw [if_neg h2, h3]
    dsimp only
    rw [h4]

/-- Counterexample to C6 as stated: the valid period-keyword detailed
report `report @**Alice** day` renders the team-stats lines for Alice;
its last line is the per-user total line, not the claimed
`"Total: 0.00 hrs"` line (and `fmt2 0 = "0.00"` pins what that claimed
line would be). -/
theorem c6_counterexample :
    handle_report aliceStore 0 "report @**Alice** day"
      = some ["⏰ Clock Stats (Day):", "- Alice: 0.00 hrs"] ∧
    fmt2 0 = "0.00" ∧
    (["⏰ Clock Stats (Day):", "- Alice: 0.00 hrs"].getLast? ≠ some "Total: 0.00 hrs") :=
  ⟨by with_unfolding_all rfl, by with_unfolding_all rfl, by decide⟩

/-- Witness for C6 (amended): both branches at concrete requests — the
keyword form `report @**Alice** day` yields the team-stats rendering, and
the relative form `report @**Alice** 2 months` yields the narrative
report over the 60-days window. -/
theorem c6_witness :
    handle_report aliceStore 0 "report @**Alice** day"
      = some (generate_stats aliceStore 0 "day" (some "Alice")) ∧
    handle_report aliceStore 0 "report @**Alice** 2 months"
      = some (report_lines "Alice" (0 - 5184000)
          (aliceStore.sessions "Alice" (some (0 - 5184000)))) := by
  constructor
  · exact c6_report_shape.2.1 aliceStore 0 "report @**Alice** day" "@**Alice**"
      (by decide) (by decide)
  · exact c6_report_shape.2.2 aliceStore 0 "report @**Alice** 2 months" "@**Alice**"
      2 (0 - 5184000) (by decide) (by decide) (by decide) (by decide)

/-- C7: for every positive count `n` and reference instant `now`, the
relative window lower bound is `now` minus `n` times the approximate unit
duration — exactly 7 days per week, 30 days per month, 365 days per year —
and in particular 2 months yields `now - 60 days` exactly. -/
theorem c7_relative_window (n now : Int) (h : 0 < n) :
    relativeSince n "week" now = some (now - n * (7 * 86400)) ∧
    relativeSince n "month" now = some (now - n * (30 * 86400)) ∧
    relativeSince n "year" now = some (now - n * (365 * 86400)) ∧
    relativeSince 2 "month" now = some (now - 60 * 86400) := by
  have e1 : relativeSince n "week" now = some (now - timedelta_weeks n) := rfl
  have e2 : relativeSince n "month" now = some (now - timedelta_days (30 * n)) := rfl
  have e3 : relativeSince n "year" now = some (now - timedelta_days (365 * n)) := rfl
  have e4 : relativeSince 2 "month" now = some (now - timedelta_days (30 * 2)) := rfl
  refine ⟨?_, ?_, ?_, ?_⟩
  · rw [e1, timedelta_weeks]; exact congrArg some (by ring)
  · rw [e2, timedelta_days]; exact congrArg some (by ring)
  · rw [e3, timedelta_days]; exact congrArg some (by ring)
  · rw [e4, timedelta_days]; exact congrArg some (by norm_num)

/-- Witness for C7 at `n = 2`, `now = 0`. -/
theorem c7_witness :
    (0 : Int) < 2 ∧ relativeSince 2 "month" 0 = some (0 - 60 * 86400) :=
  ⟨by decide, (c7_relative_window 2 0 (by decide)).2.2.2⟩

/-- C8: for every reference instant, resolving the `week` period yields a
`since` bound on a Monday (weekday 0, Monday = 0) at 00:00:00 UTC (its
time of day in seconds is 0) with `since ≤ now`. -/
theorem c8_week_monday (now : Int) :
    sinceOf "week" now = some (startOfWeek now) ∧
    pyWeekday (startOfWeek now) = 0 ∧
    startOfWeek now % 86400 = 0 ∧
    startOfWeek now ≤ now := by
  refine ⟨rfl, ?_, ?_, ?_⟩ <;> (unfold startOfWeek startOfDay pyWeekday; omega)

/-- C9: the `stats` handler replies with the InvalidPeriod error if and
only if the (lower-cased) period token is not one of `day`, `week`,
`month`, `year`, `all`; for those five it produces a stats report without
error. -/
theorem c9_invalid_period_iff (store : Store) (now : Int) (tok : String) :
    isError (handle_stats ["stats", tok] store now) = true ↔ pyLower tok ∉ periodKeywords := by
  by_cases h : pyLower tok ∈ periodKeywords <;>
    simp [handle_stats, isError, h]

/-- C10: a `stats` command with no period token defaults the period to
`day`: its reply equals that of `stats day` and is not an InvalidPeriod
error. -/
theorem c10_stats_default_day (store : Store) (now : Int) :
    handle_stats ["stats"] store now = handle_stats ["stats", "day"] store now ∧
    isError (handle_stats ["stats"] store now) = false :=
  ⟨rfl, rfl⟩

end ClockBot
